import Mathlib

/-!
Verification of the studio-go-runner response catcher
(`assets/response_catcher/main.py`).

The consumer polls a RabbitMQ queue, splits each message into a
base64-encoded wrapped symmetric key and a base64-encoded
nonce-prefixed ciphertext, unwraps the key with RSA/PKCS1-OAEP,
decrypts with a NaCl SecretBox, parses the plaintext into a protobuf
report and emits a single-line JSON rendering.

The embedding below models one iteration of the `while True` loop in
`initialize` (`initializeStep`), the inline envelope handling of lines
58-61 (`envelopeSplit`, `b64decode`), the nonce partition of lines
73-74 (`nonceOf` / `cipherOf`), the output rendering of line 78
(`render`), and the argument / output-file handling of `main`
(`mainModel`).  Library calls whose bodies live outside this repository
(pika's `basic_get`, `PKCS1_OAEP.decrypt`, `SecretBox.decrypt`,
`text_format.Parse`, `MessageToJson`) are passed in as function
parameters returning explicit success / exception values, exactly as
their results are consumed by the Python code.
-/

set_option autoImplicit false

namespace ResponseCatcher

/-- A byte is modelled as a `Nat` (values produced by base64 decoding
are below 256). -/
abbrev Bytes := List Nat

/-- The Python exceptions that can surface in the per-message pipeline.
`indexError` is `parts[1]` on a comma-free message, `binasciiError` is
raised by `base64.b64decode`, `naclError` stands for the exceptions of
`nacl.secret.SecretBox` (constructor and `decrypt`), and `textFormatError`
for `google.protobuf.text_format.Parse` failures. -/
inductive PyExc where
  | indexError
  | binasciiError (msg : String)
  | naclError (msg : String)
  | textFormatError (msg : String)
  deriving DecidableEq, Repr

/-- Boolean success test for `Except` results. -/
def okB {ε α : Type} : Except ε α → Bool
  | .ok _ => true
  | .error _ => false

/-- Value of a character in the standard base64 alphabet, `none` for
characters outside it (`base64.b64decode` discards those when
`validate=False`, the default used by the code). -/
def b64index (c : Char) : Option Nat :=
  if 'A' ≤ c ∧ c ≤ 'Z' then some (c.toNat - 65)
  else if 'a' ≤ c ∧ c ≤ 'z' then some (c.toNat - 97 + 26)
  else if '0' ≤ c ∧ c ≤ '9' then some (c.toNat - 48 + 52)
  else if c = '+' then some 62
  else if c = '/' then some 63
  else none

/-- Bytes reconstructed from a group of 6-bit base64 values: a full
quad yields three bytes, a quad of three yields two, a quad of two
yields one (the shorter cases arise only at `=` padding). -/
def quadBytes : List Nat → List Nat
  | [a, b] => [a * 4 + b / 16]
  | [a, b, c] => [a * 4 + b / 16, (b % 16) * 16 + c / 4]
  | [a, b, c, d] => [a * 4 + b / 16, (b % 16) * 16 + c / 4, (c % 4) * 64 + d]
  | _ => []

/-- Scanner for `base64.b64decode` in its default non-validating mode:
characters outside the alphabet are discarded, `=` at quad position two
or three ends the data, and a leftover quad at end of input is a
`binascii.Error`. -/
def b64scan : List Char → List Nat → List Nat → Except PyExc (List Nat)
  | [], acc, quad =>
    match quad.length with
    | 0 => .ok acc
    | 1 => .error (.binasciiError "Invalid base64-encoded string")
    | _ => .error (.binasciiError "Incorrect padding")
  | c :: rest, acc, quad =>
    if c = '=' then
      if 2 ≤ quad.length then .ok (acc ++ quadBytes quad)
      else b64scan rest acc quad
    else
      match b64index c with
      | none => b64scan rest acc quad
      | some v =>
        if quad.length = 3 then b64scan rest (acc ++ quadBytes (quad ++ [v])) []
        else b64scan rest acc (quad ++ [v])

/-- Model of `base64.b64decode` on a text segment (lines 59 and 61). -/
def b64decode (cs : List Char) : Except PyExc (List Nat) :=
  b64scan cs [] []

/-- Python `str.split(",")` (line 58): every comma is a separator and
the result always has at least one element. -/
def splitOnComma : List Char → List Char → List (List Char)
  | [], cur => [cur]
  | c :: rest, cur =>
    if c = ',' then cur :: splitOnComma rest []
    else splitOnComma rest (cur ++ [c])

/-- Value of `nacl.secret.SecretBox.NONCE_SIZE`. -/
def NONCE_SIZE : Nat := 24

/-- The nonce taken from the head of the decoded body (line 73,
`msgBytes[0:nacl.secret.SecretBox.NONCE_SIZE]`). -/
def nonceOf (msgBytes : Bytes) : Bytes := msgBytes.take NONCE_SIZE

/-- The ciphertext passed to authenticated decryption (line 73,
`msgBytes[nacl.secret.SecretBox.NONCE_SIZE:]`). -/
def cipherOf (msgBytes : Bytes) : Bytes := msgBytes.drop NONCE_SIZE

/-- Lines 58-61 of `initialize`: split the message on commas, base64
decode `parts[0]` and then `parts[1]`.  A comma-free message makes
`parts[1]` raise `IndexError`; segments beyond the second are ignored;
no length check is applied to the decoded body.  (`parts.headD []` is
`parts[0]`: `splitOnComma` never returns `[]`.) -/
def envelopeSplit (body : List Char) : Except PyExc (Bytes × Bytes) :=
  let parts := splitOnComma body []
  match b64decode (parts.headD []) with
  | .error e => .error e
  | .ok symKeyBytes =>
    match parts.drop 1 with
    | [] => .error .indexError
    | p1 :: _ =>
      match b64decode p1 with
      | .error e => .error e
      | .ok msgBytes => .ok (symKeyBytes, msgBytes)

/-- Python `str.splitlines` restricted to the newline characters
relevant here: `\r\n`, `\r` and `\n` all terminate a line and a
trailing terminator does not produce an empty final line. -/
def splitlinesAux : List Char → List Char → List (List Char)
  | [], cur => if cur.isEmpty then [] else [cur]
  | c :: rest, cur =>
    if c = '\r' then
      match _h : rest with
      | '\n' :: rest2 => cur :: splitlinesAux rest2 []
      | r => cur :: splitlinesAux r []
    else if c = '\n' then cur :: splitlinesAux rest []
    else splitlinesAux rest (cur ++ [c])
termination_by cs _ => cs.length
decreasing_by all_goals (simp_all; try omega)

/-- Python `' '.join` on a list of lines. -/
def joinSpace : List (List Char) → List Char
  | [] => []
  | [l] => l
  | l :: ls => l ++ ' ' :: joinSpace ls

/-- Line 78: `' '.join(MessageToJson(report).splitlines())`, applied to
the JSON text of the decoded report. -/
def render (js : List Char) : List Char :=
  joinSpace (splitlinesAux js [])

/-- Result of `channel.basic_get` as observed by the `try` block at
lines 45-52: a broker-side channel closure, a `ValueError`, an empty
poll (`method_frame` is `None`), or a message body (already UTF-8
decoded into text). -/
inductive PollResult where
  | closedByBroker (msg : String)
  | valueError (msg : String)
  | empty
  | message (body : List Char)

/-- Result of `cipher.decrypt` (PKCS1-OAEP) as consumed by lines 63-70:
the recovered symmetric key, a `ValueError` or a `TypeError`. -/
inductive UnwrapResult where
  | ok (key : Bytes)
  | valueError (msg : String)
  | typeError (msg : String)

/-- How one loop iteration ends: continue to the next poll, return from
`initialize` with an exit code, or escape with an uncaught exception
(which terminates the Python process with a traceback). -/
inductive Outcome where
  | next
  | ret (code : Int)
  | crash (e : PyExc)
  deriving DecidableEq, Repr

/-- Observable effects of one iteration of the `while True` loop:
the loop outcome, the `last_empty` timer afterwards, the diagnostics
printed to standard output, the report lines written to the output
sink, and the sleep performed (in tenths of a second). -/
structure StepResult where
  outcome : Outcome
  lastEmpty : Nat
  diag : List String
  emitted : List String
  sleepTenths : Nat

/-- One iteration of the `while True` loop of `initialize` (lines
44-87).  `cipherDecrypt`, `boxDecrypt`, `parseReport` and
`messageToJson` stand for the external library calls; `now` is the
value of `time.time()` during this iteration and `lastEmpty` the
current `last_empty`.  `boxDecrypt` receives the key, the ciphertext
`msgBytes[NONCE_SIZE:]` and the nonce `msgBytes[0:NONCE_SIZE]` in the
argument order of line 73. -/
def initializeStep {R : Type} (cipherDecrypt : Bytes → UnwrapResult)
    (boxDecrypt : Bytes → Bytes → Bytes → Except PyExc (List Char))
    (parseReport : List Char → Except PyExc R)
    (messageToJson : R → List Char)
    (now lastEmpty : Nat) : PollResult → StepResult
  | .closedByBroker m => ⟨.ret 0, lastEmpty, ["RMQ error, " ++ m], [], 0⟩
  | .valueError m => ⟨.ret 0, lastEmpty, ["RMQ file error, " ++ m], [], 0⟩
  | .message body =>
    match envelopeSplit body with
    | .error e => ⟨.crash e, now, [], [], 0⟩
    | .ok (symKeyBytes, msgBytes) =>
      match cipherDecrypt symKeyBytes with
      | .valueError m => ⟨.ret 0, now, ["crypto sym key error, " ++ m], [], 0⟩
      | .typeError m => ⟨.ret (-1), now, ["crypto sym key error, " ++ m], [], 0⟩
      | .ok msgKey =>
        match boxDecrypt msgKey (cipherOf msgBytes) (nonceOf msgBytes) with
        | .error e => ⟨.crash e, now, [], [], 0⟩
        | .ok unencrypted =>
          match parseReport unencrypted with
          | .error e => ⟨.crash e, now, [], [], 0⟩
          | .ok report => ⟨.next, now, [], [String.mk (render (messageToJson report))], 0⟩
  | .empty =>
    let secondsElapsed := now - lastEmpty
    let hours := secondsElapsed / 3600
    let rest := secondsElapsed % 3600
    let minutes := rest / 60
    if 0 < hours ∨ 2 < minutes then ⟨.next, now, ["Queue empty"], [], 3⟩
    else ⟨.next, lastEmpty, [], [], 3⟩

/-- Parsed command-line options of `main`.  A `none` field means the
option was absent from the command line; argparse itself rejects a
missing required option before `main`'s own checks run. -/
structure Args where
  version : Bool
  private_key : Option String
  password : Option String
  rmq_url : Option String
  rmq_queue : Option String
  output : Option String

/-- Where decoded reports are written. -/
inductive Sink where
  | stdout
  | file (path : String)
  deriving DecidableEq, Repr

/-- Observable result of `main` up to (and excluding) the blocking
consumer loop: process exit code, lines printed to standard output and
to standard error, the chosen output sink, and the file-system contents
after start-up. -/
structure MainOutcome where
  exitCode : Int
  out : List String
  err : List String
  sink : Sink
  fs : String → Option String

/-- Required-option check: `required=True` holds for `--private-key`, `--rmq-url` and
`--rmq-queue`; argparse exits with status 2 when any is missing. -/
def parseRequiredOk (a : Args) : Bool :=
  a.private_key.isSome && a.rmq_url.isSome && a.rmq_queue.isSome

/-- Effect of `open(path, 'w')`: the file's previous contents are discarded. -/
def openTruncate (fs : String → Option String) (path : String) :
    String → Option String :=
  fun p => if p = path then some "" else fs p

/-- Model of `main` (lines 90-147): argparse required-option enforcement, the
version check, the (string-emptiness) option checks, key-file
existence, output-sink selection with `open(args.output, 'w')`, then
the blocking call to `initialize` whose exit code is `loopExit`.
`pathExists` models `os.path.exists` and `openable` whether
`open(path, 'w')` succeeds. -/
def mainModel (a : Args) (pathExists : String → Bool) (openable : String → Bool)
    (fs : String → Option String) (loopExit : Int) : MainOutcome :=
  if parseRequiredOk a then
    if a.version then ⟨0, ["0.0"], [], .stdout, fs⟩
    else if a.private_key.getD "" = "" then
      ⟨-1, [], ["private key file option used for decryption not specified"], .stdout, fs⟩
    else if ¬ pathExists (a.private_key.getD "") then
      ⟨-1, [], ["file " ++ a.private_key.getD "" ++ " not found"], .stdout, fs⟩
    else if a.rmq_url.getD "" = "" then
      ⟨-1, [], ["--rmq-url not specified"], .stdout, fs⟩
    else if a.rmq_queue.getD "" = "" then
      ⟨-1, [], ["--rmq-queue not specified"], .stdout, fs⟩
    else
      match a.output with
      | none => ⟨loopExit, [], [], .stdout, fs⟩
      | some s =>
        if s = "" then ⟨loopExit, [], [], .stdout, fs⟩
        else if s = "-" then ⟨loopExit, [], [], .stdout, fs⟩
        else if openable s then ⟨loopExit, [], [], .file s, openTruncate fs s⟩
        else ⟨-1, [], ["output file error"], .stdout, fs⟩
  else ⟨2, [], ["usage: missing required arguments"], .stdout, fs⟩

/-- Concrete stand-in for `cipher.decrypt` that always recovers a
32-byte key, used to evaluate the loop step at concrete inputs. -/
def u0 : Bytes → UnwrapResult := fun _ => .ok (List.replicate 32 0)

/-- Concrete stand-in for `SecretBox.decrypt` that always succeeds. -/
def b0 : Bytes → Bytes → Bytes → Except PyExc (List Char) := fun _ _ _ => .ok ['p']

/-- Concrete stand-in for `text_format.Parse` that accepts any
plaintext (the report type instantiated as the plaintext itself). -/
def p0 : List Char → Except PyExc (List Char) := fun s => .ok s

/-- Concrete stand-in for `MessageToJson`. -/
def m0 : List Char → List Char := fun r => r

/-- Concrete existence / openability oracle. -/
def pe0 : String → Bool := fun _ => true

/-- Concrete starting file system holding old contents everywhere. -/
def fs0 : String → Option String := fun _ => some "OLD"

/-- Every branch of the message case of the loop body sets
`last_empty` to the current time (line 54 runs before any later
failure). -/
theorem messageStep_lastEmpty {R : Type} (cd : Bytes → UnwrapResult)
    (bd : Bytes → Bytes → Bytes → Except PyExc (List Char))
    (pr : List Char → Except PyExc R) (mtj : R → List Char)
    (now lastEmpty : Nat) (body : List Char) :
    (initializeStep cd bd pr mtj now lastEmpty (PollResult.message body)).lastEmpty = now := by
  simp only [initializeStep]
  split
  · rfl
  · split <;> try rfl
    split <;> try rfl
    split <;> rfl

/-- When the symmetric key is recovered, the rest of the iteration
prints nothing to the diagnostic stream (success prints only to the
output sink, and later failures escape as exceptions), and the loop
state afterwards is just the timer. -/
theorem messageStep_okUnwrap {R : Type}
    (bd : Bytes → Bytes → Bytes → Except PyExc (List Char))
    (pr : List Char → Except PyExc R) (mtj : R → List Char)
    (now lastEmpty : Nat) (body : List Char) (k : Bytes) :
    (initializeStep (fun _ => UnwrapResult.ok k) bd pr mtj now lastEmpty
        (PollResult.message body)).diag = [] ∧
    (initializeStep (fun _ => UnwrapResult.ok k) bd pr mtj now lastEmpty
        (PollResult.message body)).lastEmpty = now := by
  simp only [initializeStep]
  constructor <;>
    (split
     · rfl
     · split <;> try rfl
       split <;> rfl)

/-- Each line produced by `splitlinesAux` contains no newline
characters, provided the accumulated line so far contains none
(stated with an explicit fuel bound for the induction). -/
theorem splitlinesAux_no_newline_bounded (n : Nat) :
    ∀ (cs cur : List Char), cs.length ≤ n → '\n' ∉ cur → '\r' ∉ cur →
    ∀ piece ∈ splitlinesAux cs cur, '\n' ∉ piece ∧ '\r' ∉ piece := by
  induction n with
  | zero =>
    intro cs cur hlen h1 h2 piece hp
    have hcs : cs = [] := List.eq_nil_of_length_eq_zero (by omega)
    subst hcs
    simp only [splitlinesAux] at hp
    split at hp
    · simp at hp
    · simp at hp
      subst hp
      exact ⟨h1, h2⟩
  | succ n ih =>
    intro cs cur hlen h1 h2 piece hp
    cases cs with
    | nil =>
      simp only [splitlinesAux] at hp
      split at hp
      · simp at hp
      · simp at hp
        subst hp
        exact ⟨h1, h2⟩
    | cons c rest =>
      rw [splitlinesAux.eq_def] at hp
      dsimp only at hp
      by_cases hc : c = '\r'
      · rw [if_pos hc] at hp
        split at hp
        · rename_i rest2
          rcases List.mem_cons.mp hp with hx | hx
          · subst hx; exact ⟨h1, h2⟩
          · refine ih rest2 [] ?_ (by simp) (by simp) piece hx
            simp at hlen
            omega
        · rcases List.mem_cons.mp hp with hx | hx
          · subst hx; exact ⟨h1, h2⟩
          · refine ih rest [] ?_ (by simp) (by simp) piece hx
            simp at hlen
            omega
      · rw [if_neg hc] at hp
        by_cases hn : c = '\n'
        · rw [if_pos hn] at hp
          rcases List.mem_cons.mp hp with hx | hx
          · subst hx; exact ⟨h1, h2⟩
          · refine ih rest [] ?_ (by simp) (by simp) piece hx
            simp at hlen
            omega
        · rw [if_neg hn] at hp
          refine ih rest (cur ++ [c]) ?_ ?_ ?_ piece hp
          · simp at hlen
            omega
          · intro hmem
            rcases List.mem_append.mp hmem with hx | hx
            · exact h1 hx
            · simp at hx
              exact hn hx.symm
          · intro hmem
            rcases List.mem_append.mp hmem with hx | hx
            · exact h2 hx
            · simp at hx
              exact hc hx.symm

/-- Each line produced by `splitlinesAux` from scratch contains no
newline characters. -/
theorem splitlinesAux_no_newline (cs cur : List Char)
    (h1 : '\n' ∉ cur) (h2 : '\r' ∉ cur) :
    ∀ piece ∈ splitlinesAux cs cur, '\n' ∉ piece ∧ '\r' ∉ piece :=
  splitlinesAux_no_newline_bounded cs.length cs cur (Nat.le_refl _) h1 h2

/-- Joining lines with single spaces introduces no newline
characters. -/
theorem joinSpace_no_newline (ls : List (List Char))
    (h : ∀ piece ∈ ls, '\n' ∉ piece ∧ '\r' ∉ piece) :
    '\n' ∉ joinSpace ls ∧ '\r' ∉ joinSpace ls := by
  induction ls with
  | nil => simp [joinSpace]
  | cons l ls ih =>
    cases ls with
    | nil => simpa [joinSpace] using h l (by simp)
    | cons l2 ls2 =>
      have hl := h l (by simp)
      have hrest := ih (fun p hp => h p (List.mem_cons_of_mem _ hp))
      simp only [joinSpace]
      constructor
      · intro hmem
        rcases List.mem_append.mp hmem with hx | hx
        · exact hl.1 hx
        · rcases List.mem_cons.mp hx with hx2 | hx2
          · exact absurd hx2 (by decide)
          · exact hrest.1 hx2
      · intro hmem
        rcases List.mem_append.mp hmem with hx | hx
        · exact hl.2 hx
        · rcases List.mem_cons.mp hx with hx2 | hx2
          · exact absurd hx2 (by decide)
          · exact hrest.2 hx2

/-- The rendered report line (line 78) contains no newline
characters. -/
theorem render_no_newline (js : List Char) :
    '\n' ∉ render js ∧ '\r' ∉ render js :=
  joinSpace_no_newline _ (splitlinesAux_no_newline js [] (by simp) (by simp))

/-- C5: for a decoded body at least as long as the fixed nonce, the
nonce is exactly the first `NONCE_SIZE` bytes, the ciphertext handed to
authenticated decryption is exactly the remaining bytes, and together
they partition the body. -/
theorem C5_nonce_partition (msgBytes : Bytes) (h : NONCE_SIZE ≤ msgBytes.length) :
    nonceOf msgBytes ++ cipherOf msgBytes = msgBytes ∧
    (nonceOf msgBytes).length = NONCE_SIZE ∧
    (cipherOf msgBytes).length = msgBytes.length - NONCE_SIZE := by
  refine ⟨List.take_append_drop _ _, ?_, ?_⟩
  · simp [nonceOf]; omega
  · simp [cipherOf]

/-- Witness for C5 at a concrete 30-byte body. -/
theorem C5_witness :
    nonceOf (List.replicate 30 7) ++ cipherOf (List.replicate 30 7) = List.replicate 30 7 ∧
    (nonceOf (List.replicate 30 7)).length = NONCE_SIZE ∧
    (cipherOf (List.replicate 30 7)).length = (List.replicate 30 7 : Bytes).length - NONCE_SIZE :=
  C5_nonce_partition (List.replicate 30 7) (by decide)

/-- C9 (amended): the sleep on an empty poll is the fixed 0.3 seconds
(3 tenths), independent of how long the queue has been idle — there is
no growing back-off. -/
theorem C9_fixed_sleep {R : Type} (cd : Bytes → UnwrapResult)
    (bd : Bytes → Bytes → Bytes → Except PyExc (List Char))
    (pr : List Char → Except PyExc R) (mtj : R → List Char)
    (now lastEmpty : Nat) :
    (initializeStep cd bd pr mtj now lastEmpty PollResult.empty).sleepTenths = 3 := by
  simp only [initializeStep]
  split <;> rfl

/-- C9 counterexample: the sleep after one second of idleness equals
the sleep after a million seconds of idleness (both 0.3 s), so the
sleep does not grow with continued idleness. -/
theorem C9_counterexample :
    (initializeStep u0 b0 p0 m0 1 0 PollResult.empty).sleepTenths = 3 ∧
    (initializeStep u0 b0 p0 m0 1000000 0 PollResult.empty).sleepTenths = 3 :=
  ⟨rfl, rfl⟩

/-- C7 counterexample: invoked with the version flag but without the
required options, the program exits with argparse status 2 and prints
no version string, instead of exiting 0. -/
theorem C7_counterexample :
    (mainModel ⟨true, none, none, none, none, none⟩ pe0 pe0 fs0 7).exitCode = 2 ∧
    (mainModel ⟨true, none, none, none, none, none⟩ pe0 pe0 fs0 7).out = [] :=
  ⟨rfl, rfl⟩

/-- C7 (amended): with the required options supplied, the version flag
prints the version string and exits 0; without them argparse rejects
the command line before the version check runs. -/
theorem C7_version_with_required (a : Args) (pe op : String → Bool)
    (fs : String → Option String) (le : Int)
    (hreq : parseRequiredOk a = true) (hv : a.version = true) :
    (mainModel a pe op fs le).exitCode = 0 ∧ (mainModel a pe op fs le).out = ["0.0"] := by
  simp [mainModel, hreq, hv]

/-- Witness for C7 at a concrete command line with all required
options and the version flag. -/
theorem C7_witness :
    (mainModel ⟨true, some "k", none, some "u", some "q", none⟩ pe0 pe0 fs0 7).exitCode = 0 ∧
    (mainModel ⟨true, some "k", none, some "u", some "q", none⟩ pe0 pe0 fs0 7).out = ["0.0"] :=
  C7_version_with_required ⟨true, some "k", none, some "u", some "q", none⟩ pe0 pe0 fs0 7 rfl rfl

/-- C10: with a valid configuration naming an output file other than
`-`, start-up selects that file as the sink and opens it in truncating
write mode, so whatever the file held before is discarded. -/
theorem C10_truncates_output (pk url q path : String) (pw : Option String)
    (pe op : String → Bool) (fs : String → Option String) (le : Int)
    (hpk : pk ≠ "") (hpe : pe pk = true) (hurl : url ≠ "") (hq : q ≠ "")
    (hpath1 : path ≠ "") (hpath2 : path ≠ "-") (hop : op path = true) :
    (mainModel ⟨false, some pk, pw, some url, some q, some path⟩ pe op fs le).sink = .file path ∧
    (mainModel ⟨false, some pk, pw, some url, some q, some path⟩ pe op fs le).fs path = some "" := by
  simp [mainModel, parseRequiredOk, hpk, hpe, hurl, hq, hpath1, hpath2, hop, openTruncate]

/-- Witness for C10: the concrete file `o.txt` starts with contents
`OLD` in `fs0` and holds the empty string after start-up. -/
theorem C10_witness :
    (mainModel ⟨false, some "k", none, some "u", some "q", some "o.txt"⟩ pe0 pe0 fs0 7).sink = .file "o.txt" ∧
    (mainModel ⟨false, some "k", none, some "u", some "q", some "o.txt"⟩ pe0 pe0 fs0 7).fs "o.txt" = some "" :=
  C10_truncates_output "k" "u" "q" "o.txt" none pe0 pe0 fs0 7 (by decide) rfl
    (by decide) (by decide) (by decide) (by decide) rfl

/-- The divmod-based idle test of lines 82-84 (`hours > 0 or minutes >
2`) fires exactly when at least 180 seconds have elapsed since
`last_empty`. -/
theorem emptyStep_eq {R : Type} (cd : Bytes → UnwrapResult)
    (bd : Bytes → Bytes → Bytes → Except PyExc (List Char))
    (pr : List Char → Except PyExc R) (mtj : R → List Char)
    (now lastEmpty : Nat) :
    initializeStep cd bd pr mtj now lastEmpty PollResult.empty =
      if 180 ≤ now - lastEmpty then ⟨.next, now, ["Queue empty"], [], 3⟩
      else ⟨.next, lastEmpty, [], [], 3⟩ := by
  simp only [initializeStep]
  rcases Nat.lt_or_ge (now - lastEmpty) 180 with h | h
  · rw [if_neg (by omega), if_neg (by omega)]
  · rw [if_pos (by omega), if_pos h]

/-- C4: on an empty poll the "Queue empty" notice appears exactly when
the accumulated idle time since the last reset crosses the 180-second
threshold; emitting the notice resets the idle timer to the current
time while a below-threshold empty poll leaves it unchanged; and a
non-empty poll also resets the timer. -/
theorem C4_idle_notice_throttle {R : Type} (cd : Bytes → UnwrapResult)
    (bd : Bytes → Bytes → Bytes → Except PyExc (List Char))
    (pr : List Char → Except PyExc R) (mtj : R → List Char)
    (now lastEmpty : Nat) :
    ((initializeStep cd bd pr mtj now lastEmpty PollResult.empty).diag =
        ["Queue empty"] ↔ 180 ≤ now - lastEmpty) ∧
    (180 ≤ now - lastEmpty →
      (initializeStep cd bd pr mtj now lastEmpty PollResult.empty).lastEmpty = now) ∧
    (now - lastEmpty < 180 →
      (initializeStep cd bd pr mtj now lastEmpty PollResult.empty).lastEmpty = lastEmpty ∧
      (initializeStep cd bd pr mtj now lastEmpty PollResult.empty).diag = []) ∧
    (∀ body, (initializeStep cd bd pr mtj now lastEmpty
        (PollResult.message body)).lastEmpty = now) := by
  refine ⟨?_, ?_, ?_, fun body => messageStep_lastEmpty cd bd pr mtj now lastEmpty body⟩
  · rw [emptyStep_eq]
    by_cases h : 180 ≤ now - lastEmpty
    · simp [h]
    · simp [h]
  · intro h
    rw [emptyStep_eq, if_pos h]
  · intro h
    rw [emptyStep_eq, if_neg (by omega)]
    exact ⟨rfl, rfl⟩

/-- Witness for C4: at 200 seconds of idleness the notice fires and
the timer resets; at 100 seconds it does not fire and the timer is
unchanged. -/
theorem C4_witness :
    (initializeStep u0 b0 p0 m0 200 0 PollResult.empty).diag = ["Queue empty"] ∧
    (initializeStep u0 b0 p0 m0 200 0 PollResult.empty).lastEmpty = 200 ∧
    ((initializeStep u0 b0 p0 m0 100 0 PollResult.empty).lastEmpty = 0 ∧
      (initializeStep u0 b0 p0 m0 100 0 PollResult.empty).diag = []) :=
  ⟨(C4_idle_notice_throttle u0 b0 p0 m0 200 0).1.mpr (by decide),
    (C4_idle_notice_throttle u0 b0 p0 m0 200 0).2.1 (by decide),
    (C4_idle_notice_throttle u0 b0 p0 m0 100 0).2.2.1 (by decide)⟩

/-- C6: processing a message that completes the pipeline writes
exactly one line to the output sink, and that line contains no newline
characters (line 78 joins `splitlines` output with spaces).  Rendering
is a pure function of the decoded report, so rendering the same report
twice yields the same string by construction. -/
theorem C6_single_line {R : Type} (cd : Bytes → UnwrapResult)
    (bd : Bytes → Bytes → Bytes → Except PyExc (List Char))
    (pr : List Char → Except PyExc R) (mtj : R → List Char)
    (now lastEmpty : Nat) (body : List Char)
    (h : (initializeStep cd bd pr mtj now lastEmpty (PollResult.message body)).outcome =
      Outcome.next) :
    ∃ line : String,
      (initializeStep cd bd pr mtj now lastEmpty (PollResult.message body)).emitted = [line] ∧
      '\n' ∉ line.data ∧ '\r' ∉ line.data := by
  cases hsplit : envelopeSplit body with
  | error e => simp [initializeStep, hsplit] at h
  | ok km =>
    obtain ⟨k, mb⟩ := km
    cases hcd : cd k with
    | valueError s => simp [initializeStep, hsplit, hcd] at h
    | typeError s => simp [initializeStep, hsplit, hcd] at h
    | ok key =>
      cases hbd : bd key (cipherOf mb) (nonceOf mb) with
      | error e => simp [initializeStep, hsplit, hcd, hbd] at h
      | ok pt =>
        cases hpr : pr pt with
        | error e => simp [initializeStep, hsplit, hcd, hbd, hpr] at h
        | ok rep =>
          refine ⟨String.mk (render (mtj rep)), ?_, ?_, ?_⟩
          · simp [initializeStep, hsplit, hcd, hbd, hpr]
          · exact (render_no_newline (mtj rep)).1
          · exact (render_no_newline (mtj rep)).2

/-- Witness for C6 at a concrete successfully processed message. -/
theorem C6_witness :
    ∃ line : String,
      (initializeStep u0 b0 p0 m0 0 0 (PollResult.message ("AAAA,BBBB".data))).emitted =
        [line] ∧ '\n' ∉ line.data ∧ '\r' ∉ line.data :=
  C6_single_line u0 b0 p0 m0 0 0 ("AAAA,BBBB".data) rfl

/-- C1 counterexample: a message whose envelope is malformed (no comma
delimiter) makes the loop body escape with an uncaught `IndexError`,
terminating the process instead of logging and continuing. -/
theorem C1_counterexample :
    (initializeStep u0 b0 p0 m0 0 0 (PollResult.message ("AAAA".data))).outcome =
      Outcome.crash PyExc.indexError := rfl

/-- C1 (amended): the loop continues to the next poll only when every
per-message stage succeeded; any stage failure ends the iteration with
a return from `initialize` or an uncaught exception. -/
theorem C1_next_requires_all_stages {R : Type} (cd : Bytes → UnwrapResult)
    (bd : Bytes → Bytes → Bytes → Except PyExc (List Char))
    (pr : List Char → Except PyExc R) (mtj : R → List Char)
    (now lastEmpty : Nat) (body : List Char)
    (h : (initializeStep cd bd pr mtj now lastEmpty (PollResult.message body)).outcome =
      Outcome.next) :
    ∃ k m key pt, envelopeSplit body = .ok (k, m) ∧ cd k = .ok key ∧
      bd key (cipherOf m) (nonceOf m) = .ok pt ∧ okB (pr pt) = true := by
  cases hsplit : envelopeSplit body with
  | error e => simp [initializeStep, hsplit] at h
  | ok km =>
    obtain ⟨k, m⟩ := km
    cases hcd : cd k with
    | valueError s => simp [initializeStep, hsplit, hcd] at h
    | typeError s => simp [initializeStep, hsplit, hcd] at h
    | ok key =>
      cases hbd : bd key (cipherOf m) (nonceOf m) with
      | error e => simp [initializeStep, hsplit, hcd, hbd] at h
      | ok pt =>
        cases hpr : pr pt with
        | error e => simp [initializeStep, hsplit, hcd, hbd, hpr] at h
        | ok rep => exact ⟨k, m, key, pt, rfl, hcd, hbd, by simp [okB, hpr]⟩

/-- Witness for C1 at a well-formed concrete message with library
stand-ins that succeed. -/
theorem C1_witness :
    ∃ k m key pt, envelopeSplit ("AAAA,BBBB".data) = .ok (k, m) ∧ u0 k = .ok key ∧
      b0 key (cipherOf m) (nonceOf m) = .ok pt ∧ okB (p0 pt) = true :=
  C1_next_requires_all_stages u0 b0 p0 m0 0 0 ("AAAA,BBBB".data) rfl

/-- Every failure of the base64 scanner is a `binascii.Error`. -/
theorem b64scan_error_binascii (cs : List Char) :
    ∀ acc quad e, b64scan cs acc quad = .error e → ∃ m, e = PyExc.binasciiError m := by
  induction cs with
  | nil =>
    intro acc quad e h
    simp only [b64scan] at h
    split at h
    · exact absurd h (by simp)
    · injection h with h'
      exact ⟨_, h'.symm⟩
    · injection h with h'
      exact ⟨_, h'.symm⟩
  | cons c rest ih =>
    intro acc quad e h
    simp only [b64scan] at h
    split at h
    · split at h
      · exact absurd h (by simp)
      · exact ih _ _ _ h
    · split at h
      · exact ih _ _ _ h
      · split at h
        · exact ih _ _ _ h
        · exact ih _ _ _ h

/-- Every failure of `base64.b64decode` is a `binascii.Error`. -/
theorem b64decode_error_binascii (cs : List Char) (e : PyExc)
    (h : b64decode cs = .error e) : ∃ m, e = PyExc.binasciiError m :=
  b64scan_error_binascii cs [] [] e h

/-- C2 counterexample: on `"AAAA,BBBB"` both segments are valid base64
and the decoded body has 3 bytes, fewer than the 24-byte nonce — yet
the split succeeds instead of failing with an envelope-format error. -/
theorem C2_counterexample :
    envelopeSplit ("AAAA,BBBB".data) = Except.ok ([0, 0, 0], [4, 16, 65]) ∧
    ([4, 16, 65] : Bytes).length < NONCE_SIZE :=
  ⟨rfl, by decide⟩

/-- C2 (amended): the envelope split succeeds exactly when the
comma-split yields at least two segments and the first two segments
base64-decode — extra segments and a too-short body are not rejected —
and every failure is an unclassified `IndexError` (comma absent) or
`binascii.Error` (bad base64), never a dedicated envelope-format
error. -/
theorem C2_split_characterization (body : List Char) :
    (okB (envelopeSplit body) = true ↔
      okB (b64decode ((splitOnComma body []).headD [])) = true ∧
      2 ≤ (splitOnComma body []).length ∧
      okB (b64decode (((splitOnComma body []).drop 1).headD [])) = true) ∧
    (∀ e, envelopeSplit body = .error e →
      e = PyExc.indexError ∨ ∃ m, e = PyExc.binasciiError m) := by
  constructor
  · simp only [envelopeSplit]
    cases h0 : b64decode ((splitOnComma body []).headD []) with
    | error e0 => simp [okB]
    | ok k =>
      cases hd : (splitOnComma body []).drop 1 with
      | nil =>
        have hlen : (splitOnComma body []).length ≤ 1 := by
          have hl := congrArg List.length hd
          simp [List.length_drop] at hl
          omega
        simp [okB, b64decode, b64scan]
        omega
      | cons p1 t =>
        have hlen : 2 ≤ (splitOnComma body []).length := by
          have hl := congrArg List.length hd
          simp [List.length_drop] at hl
          omega
        cases h1 : b64decode p1 with
        | error e1 => simp [okB, h1]
        | ok mb => simp [okB, h1, hlen]
  · intro e he
    simp only [envelopeSplit] at he
    split at he
    · rename_i e0 heq
      injection he with h'
      exact Or.inr (h' ▸ b64decode_error_binascii _ _ heq)
    · rename_i k heq
      split at he
      · injection he with h'
        exact Or.inl h'.symm
      · rename_i p1 t
        split at he
        · rename_i e1 heq1
          injection he with h'
          exact Or.inr (h' ▸ b64decode_error_binascii _ _ heq1)
        · exact absurd he (by simp)

/-- Witness for C2: the characterization applied at the two concrete
inputs of the claim, the two-segment short-body message (split
succeeds) and the comma-free message (split fails with the index
error). -/
theorem C2_witness :
    okB (envelopeSplit ("AAAA,BBBB".data)) = true ∧
    (PyExc.indexError = PyExc.indexError ∨ ∃ m, PyExc.indexError = PyExc.binasciiError m) :=
  ⟨(C2_split_characterization ("AAAA,BBBB".data)).1.mpr (by decide),
    (C2_split_characterization ("AAAA".data)).2 PyExc.indexError rfl⟩

/-- C3 counterexample: a `ValueError` raised by the poll itself (the
`except ValueError` around `basic_get`, line 50) also returns exit code
0 — a third clean-termination situation beyond the two the claim
lists. -/
theorem C3_counterexample :
    (initializeStep u0 b0 p0 m0 0 0 (PollResult.valueError "x")).outcome =
      Outcome.ret 0 := rfl

/-- C3 (amended): the loop body yields exit code 0 in exactly three
situations: the broker closes the channel during a poll, a
`ValueError` surfaces from the poll itself, or the asymmetric layer
raises a `ValueError` while unwrapping the symmetric key. -/
theorem C3_ret_zero_characterization {R : Type} (cd : Bytes → UnwrapResult)
    (bd : Bytes → Bytes → Bytes → Except PyExc (List Char))
    (pr : List Char → Except PyExc R) (mtj : R → List Char)
    (now lastEmpty : Nat) (poll : PollResult) :
    (initializeStep cd bd pr mtj now lastEmpty poll).outcome = Outcome.ret 0 ↔
      (∃ m, poll = .closedByBroker m) ∨ (∃ m, poll = .valueError m) ∨
      (∃ body k mb m2, poll = .message body ∧ envelopeSplit body = .ok (k, mb) ∧
        cd k = .valueError m2) := by
  cases poll with
  | closedByBroker m => simp [initializeStep]
  | valueError m => simp [initializeStep]
  | empty =>
    have hL : (initializeStep cd bd pr mtj now lastEmpty PollResult.empty).outcome =
        Outcome.next := by
      simp only [initializeStep]
      split <;> rfl
    simp [hL]
  | message body =>
    constructor
    · intro h
      cases hsplit : envelopeSplit body with
      | error e => simp [initializeStep, hsplit] at h
      | ok km =>
        obtain ⟨k, mb⟩ := km
        cases hcd : cd k with
        | valueError s => exact Or.inr (Or.inr ⟨body, k, mb, s, rfl, hsplit, hcd⟩)
        | typeError s =>
          simp [initializeStep, hsplit, hcd] at h
        | ok key =>
          cases hbd : bd key (cipherOf mb) (nonceOf mb) with
          | error e => simp [initializeStep, hsplit, hcd, hbd] at h
          | ok pt =>
            cases hpr : pr pt with
            | error e => simp [initializeStep, hsplit, hcd, hbd, hpr] at h
            | ok rep => simp [initializeStep, hsplit, hcd, hbd, hpr] at h
    · rintro (⟨m2, hm⟩ | ⟨m2, hm⟩ | ⟨b, k, mb, m2, hb, hsplit, hcd⟩)
      · cases hm
      · cases hm
      · injection hb with hb'
        subst hb'
        simp [initializeStep, hsplit, hcd]

/-- C8: the diagnostic stream never depends on the recovered symmetric
key — two runs of one loop iteration on the same message differing
only in the key recovered by the unwrap step print identical
diagnostics and leave identical loop state, so the key bytes cannot
appear there, and the only state surviving the message is the idle
timer. -/
theorem C8_key_noninterference {R : Type}
    (bd : Bytes → Bytes → Bytes → Except PyExc (List Char))
    (pr : List Char → Except PyExc R) (mtj : R → List Char)
    (now lastEmpty : Nat) (body : List Char) (k1 k2 : Bytes) :
    ((initializeStep (fun _ => UnwrapResult.ok k1) bd pr mtj now lastEmpty
        (PollResult.message body)).diag =
      (initializeStep (fun _ => UnwrapResult.ok k2) bd pr mtj now lastEmpty
        (PollResult.message body)).diag) ∧
    ((initializeStep (fun _ => UnwrapResult.ok k1) bd pr mtj now lastEmpty
        (PollResult.message body)).lastEmpty =
      (initializeStep (fun _ => UnwrapResult.ok k2) bd pr mtj now lastEmpty
        (PollResult.message body)).lastEmpty) :=
  ⟨((messageStep_okUnwrap bd pr mtj now lastEmpty body k1).1).trans
      ((messageStep_okUnwrap bd pr mtj now lastEmpty body k2).1).symm,
    ((messageStep_okUnwrap bd pr mtj now lastEmpty body k1).2).trans
      ((messageStep_okUnwrap bd pr mtj now lastEmpty body k2).2).symm⟩

end ResponseCatcher
